import Mathlib

set_option maxRecDepth 100000

/-!
Verification of the morphological normalization engine of the Lane lexicon
correction scripts (`scripts/fix_aorists.py` and `scripts/fix_verb_forms.py`).

Text is modelled as `List Char`.  Python's machinery is translated as follows:
string slicing/filters become list operations; the fixed regular expressions
used by the scanners are translated into dedicated deterministic matchers
(each of the source's patterns is built from literals, maximal character-class
runs and first-occurrence searches, so each has a unique match at a given
position); `re.sub` with a `re.escape`d pattern and a backslash-free
replacement is literal global substring replacement, modelled by `replaceAll`.
-/

/-! ## Diacritic codec (the `ARABIC_DIACRITICS` tables of both scripts) -/

def fathaC : Char := 'َ'
def dammaC : Char := 'ُ'
def kasraC : Char := 'ِ'
def sukunC : Char := 'ْ'
def shaddaC : Char := 'ّ'
def tanweenFathC : Char := 'ً'
def tanweenDammC : Char := 'ٌ'
def tanweenKasrC : Char := 'ٍ'
def hamzaAboveC : Char := 'ٔ'
def hamzaBelowC : Char := 'ٕ'

/-- The diacritic table of `fix_aorists.py` (`ARABIC_DIACRITICS`, 8 marks:
no hamza-above / hamza-below entries). -/
def ARABIC_DIACRITICS_aor : List Char :=
  [fathaC, dammaC, kasraC, sukunC, shaddaC, tanweenFathC, tanweenDammC, tanweenKasrC]

/-- The diacritic table of `fix_verb_forms.py` (`ARABIC_DIACRITICS`, 10 marks,
including hamza-above and hamza-below). -/
def ARABIC_DIACRITICS_vf : List Char :=
  [fathaC, dammaC, kasraC, sukunC, shaddaC, tanweenFathC, tanweenDammC, tanweenKasrC,
   hamzaAboveC, hamzaBelowC]

/-- Python `str.strip()` whitespace predicate (the ASCII whitespace characters;
the inputs handled here contain no other whitespace codepoints). -/
def pyIsSpace (c : Char) : Bool :=
  c = ' ' || c = '\t' || c = '\n' || c = '\r' || c = '\x0b' || c = '\x0c'

/-- Python `str.strip()`: drop leading and trailing whitespace. -/
def pstrip (s : List Char) : List Char :=
  ((s.dropWhile pyIsSpace).reverse.dropWhile pyIsSpace).reverse

namespace FixAorists

/-- Translation of `fix_aorists.remove_diacritics`: keep every character not in the script's
own (8-entry) diacritic table. -/
def removeDiacritics (text : List Char) : List Char :=
  text.filter (fun c => !(ARABIC_DIACRITICS_aor.contains c))

/-- Translation of `fix_aorists.get_root_letters`: strip whitespace, remove diacritics, keep
the characters of the Arabic block U+0600..U+06FF.  (The source returns all
remaining letters; it does not truncate to three.) -/
def getRootLetters (rootText : List Char) : List Char :=
  (removeDiacritics (pstrip rootText)).filter
    (fun c => 0x600 ≤ c.toNat && c.toNat ≤ 0x6FF)

end FixAorists

namespace FixVerbForms

/-- Translation of `fix_verb_forms.remove_diacritics`: keep every character not in the
script's own (10-entry) diacritic table. -/
def removeDiacritics (text : List Char) : List Char :=
  text.filter (fun c => !(ARABIC_DIACRITICS_vf.contains c))

/-- Translation of `fix_verb_forms.get_root_letters`. -/
def getRootLetters (rootText : List Char) : List Char :=
  (removeDiacritics (pstrip rootText)).filter
    (fun c => 0x600 ≤ c.toNat && c.toNat ≤ 0x6FF)

end FixVerbForms

/-! ## Pattern analyzer (`fix_aorists.py`) -/

/-- The three vowel-pattern values returned by
`analyze_current_aorist_for_intended_pattern` (Python strings
`'damma' | 'kasra' | 'fatha'`). -/
inductive Vowel where
  | damma
  | kasra
  | fatha
deriving DecidableEq, Repr

/-- The four diacritics recognized by `extract_diacritic_from_letter`
(Python strings `'fatha' | 'kasra' | 'damma' | 'sukun'`; `None` is `none`). -/
inductive RecMark where
  | fatha
  | kasra
  | damma
  | sukun
deriving DecidableEq, Repr

/-- The combining character of a recognized mark. -/
def markChar : RecMark → Char
  | .fatha => fathaC
  | .kasra => kasraC
  | .damma => dammaC
  | .sukun => sukunC

/-- Position of a mark in the source's `if`/`elif` chain (`fatha` first). -/
def markPrio : RecMark → Nat
  | .fatha => 0
  | .kasra => 1
  | .damma => 2
  | .sukun => 3

/-- Translation of `fix_aorists.extract_diacritic_from_letter`: first recognized mark of the
chain fatha, kasra, damma, sukun contained in the letter unit, else `none`. -/
def extract_diacritic_from_letter (letterWithDiacritic : List Char) : Option RecMark :=
  if fathaC ∈ letterWithDiacritic then some .fatha
  else if kasraC ∈ letterWithDiacritic then some .kasra
  else if dammaC ∈ letterWithDiacritic then some .damma
  else if sukunC ∈ letterWithDiacritic then some .sukun
  else none

/-- The letter test of the parsing loop in
`analyze_current_aorist_for_intended_pattern`: an Arabic-block character that
is not in the (8-entry) diacritic table of `fix_aorists.py`. -/
def isAorLetter (c : Char) : Bool :=
  (0x600 ≤ c.toNat && c.toNat ≤ 0x6FF) && !(ARABIC_DIACRITICS_aor.contains c)

/-- The accumulator loop of `analyze_current_aorist_for_intended_pattern`:
each Arabic letter starts a new unit (flushing the current one), every other
character is appended to the current unit; a final non-empty unit is flushed. -/
def splitLettersAux : List Char → List Char → List (List Char)
  | [], cur => if cur = [] then [] else [cur]
  | c :: rest, cur =>
    if isAorLetter c then
      if cur = [] then splitLettersAux rest [c]
      else cur :: splitLettersAux rest [c]
    else splitLettersAux rest (cur ++ [c])

/-- Split an aorist into letter units (base letter plus trailing diacritics). -/
def splitLetters (s : List Char) : List (List Char) :=
  splitLettersAux s []

/-- Translation of `fix_aorists.analyze_current_aorist_for_intended_pattern`,
line by line: inputs shorter than 4 characters default to `damma`; otherwise
the leading yā'+fatha prefix is dropped if present, the remainder is split
into letter units, fewer than 2 units default to `damma`, and otherwise the
second unit's recognized diacritic is mapped
damma↦damma, kasra↦kasra, fatha↦fatha, anything else↦damma. -/
def analyze_current_aorist_for_intended_pattern (currentAorist : List Char) : Vowel :=
  if currentAorist.length < 4 then .damma
  else
    let cleanAorist :=
      if ['ي', fathaC].isPrefixOf currentAorist then currentAorist.drop 2 else currentAorist
    let letters := splitLetters cleanAorist
    if letters.length < 2 then .damma
    else
      match extract_diacritic_from_letter (letters.getD 1 []) with
      | some .damma => .damma
      | some .kasra => .kasra
      | some .fatha => .fatha
      | _ => .damma

/-- The inference procedure exactly as the specification words it (for the
refinement comparison of claim C3): strip the yā'+fatha subject prefix if
present, split into letter units, return `damma` when fewer than 2 units
exist, and otherwise classify the second unit's diacritic, mapping
damma↦damma, kasra↦kasra, fatha↦fatha and anything else to `damma`.  The
specification states this for every non-empty input, with no length guard. -/
def inferClaim (currentAorist : List Char) : Vowel :=
  let cleanAorist :=
    if ['ي', fathaC].isPrefixOf currentAorist then currentAorist.drop 2 else currentAorist
  let letters := splitLetters cleanAorist
  if letters.length < 2 then .damma
  else
    match extract_diacritic_from_letter (letters.getD 1 []) with
    | some .damma => .damma
    | some .kasra => .kasra
    | some .fatha => .fatha
    | _ => .damma

/-- Translation of `fix_aorists.generate_correct_aorist`: `none` for fewer than 3 root
letters, otherwise the literal concatenation
yā'+fatha, r1+sukun, r2+pattern vowel, r3+damma (only the first three
letters are used). -/
def generate_correct_aorist (rootLetters : List Char) (intendedVowelPattern : Vowel) :
    Option (List Char) :=
  match rootLetters with
  | first :: second :: third :: _ =>
    let secondVowel :=
      match intendedVowelPattern with
      | .damma => dammaC
      | .kasra => kasraC
      | .fatha => fathaC
    some (['ي', fathaC] ++ [first, sukunC, second, secondVowel, third, dammaC])
  | _ => none

/-! ## Assimilation rules and form generator (`fix_verb_forms.py`) -/

/-- The assimilating consonant list of `apply_assimilation_rules` for
Forms V and VI (`assimilating_letters` in the source). -/
def assimilating_letters : List Char :=
  ['ت', 'ث', 'ج', 'د', 'ذ', 'ز', 'س', 'ش', 'ص', 'ض', 'ط', 'ظ']

/-- The Form VIII list of `apply_assimilation_rules` (its assimilating list
minus tā', which has its own branch). -/
def form8Letters : List Char :=
  ['ث', 'ج', 'د', 'ذ', 'ز', 'س', 'ش', 'ص', 'ض', 'ط', 'ظ']

/-- Translation of `fix_verb_forms.apply_assimilation_rules`: roots shorter than 3 letters
are returned unchanged; otherwise the branches keyed on the form number and
the first letter return the first three letters (or a doubled-consonant
triple for Form VII), and every other case returns the root unchanged. -/
def apply_assimilation_rules (formNum : Nat) (rootLetters : List Char) : List Char :=
  match rootLetters with
  | f :: a :: l :: _ =>
    if (formNum = 5 || formNum = 6) && assimilating_letters.contains f then [f, a, l]
    else if formNum = 7 && f = 'ن' then ['ن', a, l]
    else if formNum = 7 && f = 'م' then ['م', a, l]
    else if formNum = 8 && f = 'ت' then [f, a, l]
    else if formNum = 8 && form8Letters.contains f then [f, a, l]
    else rootLetters
  | _ => rootLetters

/-- Translation of `fix_verb_forms.generate_verb_form`: `none` when the form number is not a
key of `VERB_FORMS` (2–13) or the root has fewer than 3 letters; otherwise
the template of the form, built over the first three letters of the
assimilation-adjusted root, with the Form V/VI branch keyed on whether
`apply_assimilation_rules` changed the root and the Form VII branch keyed on
the first letter. -/
def generate_verb_form (formNum : Nat) (rootLetters : List Char) : Option (List Char) :=
  if formNum < 2 || 13 < formNum || rootLetters.length < 3 then none
  else
    match apply_assimilation_rules formNum rootLetters with
    | f :: a :: l :: _ =>
      if formNum = 2 then
        some [f, fathaC, a, shaddaC, fathaC, l, fathaC]
      else if formNum = 3 then
        some [f, fathaC, 'ا', a, fathaC, l, fathaC]
      else if formNum = 4 then
        some ['أ', fathaC, f, sukunC, a, fathaC, l, fathaC]
      else if formNum = 5 then
        if apply_assimilation_rules 5 rootLetters ≠ rootLetters then
          some ['ا', kasraC, f, shaddaC, fathaC, a, shaddaC, fathaC, l, fathaC]
        else
          some ['ت', fathaC, f, fathaC, a, shaddaC, fathaC, l, fathaC]
      else if formNum = 6 then
        if apply_assimilation_rules 6 rootLetters ≠ rootLetters then
          some ['ا', kasraC, f, shaddaC, fathaC, 'ا', a, fathaC, l, fathaC]
        else
          some ['ت', fathaC, f, fathaC, 'ا', a, fathaC, l, fathaC]
      else if formNum = 7 then
        if f = 'ن' then
          some ['ا', kasraC, 'ن', shaddaC, fathaC, a, fathaC, l, fathaC]
        else if f = 'م' then
          some ['ا', kasraC, 'م', shaddaC, fathaC, a, fathaC, l, fathaC]
        else
          some ['ا', kasraC, 'ن', sukunC, f, fathaC, a, fathaC, l, fathaC]
      else if formNum = 8 then
        some ['ا', kasraC, f, sukunC, 'ت', fathaC, a, fathaC, l, fathaC]
      else if formNum = 9 then
        some ['ا', kasraC, f, sukunC, a, fathaC, l, shaddaC, fathaC]
      else if formNum = 10 then
        some ['ا', kasraC, 'س', sukunC, 'ت', fathaC, f, sukunC, a, fathaC, l, fathaC]
      else if formNum = 11 then
        some ['ا', kasraC, f, sukunC, a, fathaC, 'ا', l, shaddaC, fathaC]
      else if formNum = 12 then
        some ['ا', kasraC, f, sukunC, a, fathaC, 'و', sukunC, a, fathaC, l, fathaC]
      else if formNum = 13 then
        some ['ا', kasraC, f, sukunC, a, fathaC, 'و', shaddaC, fathaC, l, fathaC]
      else none
    | _ => none

/-! ## Global substring replacement (`str.replace` / `re.sub` on an escaped
literal pattern with a backslash-free replacement) -/

/-- Left-to-right non-overlapping replacement of every occurrence of a
non-empty pattern.  The fuel argument bounds the number of steps; every step
consumes at least one character, so fuel equal to the text length suffices. -/
def replaceAllGo (pat rep : List Char) : Nat → List Char → List Char
  | 0, s => s
  | _ + 1, [] => []
  | fuel + 1, c :: rest =>
    if pat.isPrefixOf (c :: rest) then
      rep ++ replaceAllGo pat rep fuel (List.drop pat.length (c :: rest))
    else
      c :: replaceAllGo pat rep fuel rest

/-- Python `s.replace(pat, rep)` (and `re.sub(re.escape(pat), rep, s)` for a
backslash-free `rep`): replace every non-overlapping occurrence of `pat`,
scanning left to right; an empty pattern inserts `rep` at every boundary. -/
def replaceAll (s pat rep : List Char) : List Char :=
  if pat = [] then rep ++ s.foldr (fun c acc => c :: (rep ++ acc)) []
  else replaceAllGo pat rep s.length s

/-! ## Scanner of `fix_verb_forms.py` (`find_verb_form_entries`)

The three regular expressions of the scanner are fixed, and each is a
sequence of literals, maximal character-class runs, and a first-occurrence
search, so each has at most one match at a given start position; the
matchers below implement exactly that.  `findall`/`finditer` scan for the
leftmost match and continue after each match; the scan loops below carry a
fuel argument equal to the text length, which bounds the number of steps
since every step consumes at least one character. -/

/-- First occurrence of `pat`: `some (before, after)` splits the text around
the leftmost occurrence. -/
def findSub : List Char → List Char → Option (List Char × List Char)
  | s, pat =>
    match s with
    | [] => if pat = [] then some ([], []) else none
    | c :: rest =>
      if pat.isPrefixOf (c :: rest) then some ([], List.drop pat.length (c :: rest))
      else
        match findSub rest pat with
        | some (pre, post) => some (c :: pre, post)
        | none => none

/-- Match of `<div2 type="root"[^>]*>.*?</div2>` (DOTALL) at the start of the
text: the literal opener, a maximal run of non-`>` characters, `>`, then the
lazy body ending at the first `</div2>`.  Returns the matched text and the
rest. -/
def matchSectionAt (s : List Char) : Option (List Char × List Char) :=
  let lit := ("<div2 type=\"root\"").toList
  if lit.isPrefixOf s then
    let s1 := List.drop lit.length s
    let nonGt := s1.takeWhile (fun c => c ≠ '>')
    match List.drop nonGt.length s1 with
    | '>' :: s3 =>
      match findSub s3 ("</div2>").toList with
      | some (mid, rest) =>
        some (lit ++ nonGt ++ '>' :: mid ++ ("</div2>").toList, rest)
      | none => none
    | _ => none
  else none

/-- Translation of `re.findall` of the root-section pattern: leftmost matches, continuing
after each match. -/
def findAllSectionsAux : Nat → List Char → List (List Char)
  | 0, _ => []
  | fuel + 1, s =>
    match matchSectionAt s with
    | some (m, after) => m :: findAllSectionsAux fuel after
    | none =>
      match s with
      | [] => []
      | _ :: rest => findAllSectionsAux fuel rest

/-- All root sections of the document. -/
def findAllSections (s : List Char) : List (List Char) :=
  findAllSectionsAux s.length s

/-- Match of `<head><foreign lang="ar">([^<]+)</foreign></head>` at the start
of the text: returns the captured group. -/
def matchHeadAt (s : List Char) : Option (List Char) :=
  let lit := ("<head><foreign lang=\"ar\">").toList
  if lit.isPrefixOf s then
    let s1 := List.drop lit.length s
    let cap := s1.takeWhile (fun c => c ≠ '<')
    if cap ≠ [] && ("</foreign></head>").toList.isPrefixOf (List.drop cap.length s1) then
      some cap
    else none
  else none

/-- Translation of `re.search` for the root label: try each position left to right. -/
def searchHead : List Char → Option (List Char)
  | [] => none
  | c :: rest =>
    match matchHeadAt (c :: rest) with
    | some cap => some cap
    | none => searchHead rest

/-- Digits of a numeric capture to a number (`int(...)` in the source). -/
def digitsToNat (ds : List Char) : Nat :=
  ds.foldl (fun n c => n * 10 + (c.toNat - 48)) 0

/-- Match of `<itype>(\d+)</itype>\s*\n\s*<orth lang="ar">([^<]+)</orth></form>`
at the start of the text: returns the form number, the raw second capture,
the full matched text, and the rest after the match.  (`\s*\n\s*` consumes
the maximal whitespace run, which must contain a newline.) -/
def matchVerbAt (s : List Char) : Option (Nat × List Char × List Char × List Char) :=
  let l1 := ("<itype>").toList
  if l1.isPrefixOf s then
    let s1 := List.drop l1.length s
    let ds := s1.takeWhile Char.isDigit
    if ds = [] then none
    else
      let s2 := List.drop ds.length s1
      let l2 := ("</itype>").toList
      if l2.isPrefixOf s2 then
        let s3 := List.drop l2.length s2
        let ws := s3.takeWhile pyIsSpace
        if '\n' ∈ ws then
          let s4 := List.drop ws.length s3
          let l3 := ("<orth lang=\"ar\">").toList
          if l3.isPrefixOf s4 then
            let s5 := List.drop l3.length s4
            let cap := s5.takeWhile (fun c => c ≠ '<')
            if cap = [] then none
            else
              let s6 := List.drop cap.length s5
              let l4 := ("</orth></form>").toList
              if l4.isPrefixOf s6 then
                some (digitsToNat ds, cap, l1 ++ ds ++ l2 ++ ws ++ l3 ++ cap ++ l4,
                      List.drop l4.length s6)
              else none
          else none
        else none
      else none
  else none

/-- Translation of `re.finditer` of the verb-form pattern. -/
def verbMatchesAux : Nat → List Char → List (Nat × List Char × List Char)
  | 0, _ => []
  | fuel + 1, s =>
    match matchVerbAt s with
    | some (n, cap, full, rest) => (n, cap, full) :: verbMatchesAux fuel rest
    | none =>
      match s with
      | [] => []
      | _ :: rest => verbMatchesAux fuel rest

/-- All verb-form occurrences of a section. -/
def verbMatches (s : List Char) : List (Nat × List Char × List Char) :=
  verbMatchesAux s.length s

/-- A correction candidate of `find_verb_form_entries` (the entry dictionary;
the presentational `form_name`/`form_description` strings are omitted). -/
structure VfEntry where
  rootText : List Char
  rootLetters : List Char
  formNumber : Nat
  currentForm : List Char
  correctForm : List Char
  fullMatch : List Char
deriving DecidableEq, Repr

/-- Translation of `fix_verb_forms.find_verb_form_entries`: per root section, extract the
root label (skip the section if absent or yielding fewer than 3 letters),
then per verb-form occurrence skip Form 1, generate the canonical form, and
emit an entry when generation succeeded and the current (stripped) text
differs from it. -/
def find_verb_form_entries (xmlContent : List Char) : List VfEntry :=
  (findAllSections xmlContent).flatMap fun sec =>
    match searchHead sec with
    | none => []
    | some rootText =>
      let rootLetters := FixVerbForms.getRootLetters rootText
      if rootLetters.length < 3 then []
      else
        (verbMatches sec).filterMap fun m =>
          let formNum := m.1
          let currentForm := pstrip m.2.1
          if formNum = 1 then none
          else
            match generate_verb_form formNum rootLetters with
            | some correctForm =>
              if correctForm ≠ [] && currentForm ≠ correctForm then
                some ⟨rootText, rootLetters, formNum, currentForm, correctForm, m.2.2⟩
              else none
            | none => none

/-- Translation of `fix_verb_forms.apply_verb_form_fixes`: for each entry in order, replace
every occurrence of the entry's full matched text in the current document by
the full matched text with every occurrence of the current form replaced by
the correct form, and count one fix per entry unconditionally. -/
def apply_verb_form_fixes : List Char → List VfEntry → List Char × Nat
  | xmlContent, [] => (xmlContent, 0)
  | xmlContent, e :: rest =>
    let newForm := replaceAll e.fullMatch e.currentForm e.correctForm
    let fixedContent := replaceAll xmlContent e.fullMatch newForm
    let r := apply_verb_form_fixes fixedContent rest
    (r.1, r.2 + 1)

/-- A correction candidate of `find_root_entries_with_diacritic_analysis` in
`fix_aorists.py` (presentational fields omitted). -/
structure AorEntry where
  rootText : List Char
  rootLetters : List Char
  currentAorist : List Char
  correctAorist : List Char
  fullMatch : List Char
deriving DecidableEq, Repr

/-- The replacement loop of `fix_aorists.fix_aorists_in_content`, over a given
entry list: same shape as `apply_verb_form_fixes`, with one fix counted per
entry unconditionally. -/
def fix_aorists_loop : List Char → List AorEntry → List Char × Nat
  | xmlContent, [] => (xmlContent, 0)
  | xmlContent, e :: rest =>
    let newForm := replaceAll e.fullMatch e.currentAorist e.correctAorist
    let fixedContent := replaceAll xmlContent e.fullMatch newForm
    let r := fix_aorists_loop fixedContent rest
    (r.1, r.2 + 1)

/-- A two-scope document in the input format of `fix_verb_forms.py`: two root
sections with different roots (كتب and نصر) whose Form II occurrences carry
byte-identical matched text. -/
def docC1 : List Char :=
  ("<div2 type=\"root\"><head><foreign lang=\"ar\">كتب</foreign></head><form><itype>2</itype>\n<orth lang=\"ar\">ف</orth></form></div2><div2 type=\"root\"><head><foreign lang=\"ar\">نصر</foreign></head><form><itype>2</itype>\n<orth lang=\"ar\">ف</orth></form></div2>").toList

/-! ## Helper lemmas -/

/-- Lemma: `generate_verb_form` is `none` on roots with fewer than 3 letters. -/
lemma generate_verb_form_none_of_short (n : Nat) (rl : List Char)
    (h : rl.length < 3) : generate_verb_form n rl = none := by
  unfold generate_verb_form
  rw [if_pos]
  simp [h]

/-- Lemma: `generate_correct_aorist` is `none` on roots with fewer than 3 letters. -/
lemma generate_correct_aorist_none_of_short (rl : List Char) (p : Vowel)
    (h : rl.length < 3) : generate_correct_aorist rl p = none := by
  match rl, h with
  | [], _ => rfl
  | [_], _ => rfl
  | [_, _], _ => rfl

/-- Exact characterization of the verb-form extractor: its output is the
filter of the whitespace-stripped input keeping precisely the Arabic-block
characters outside the script's diacritic table — all of them, in order. -/
lemma getRootLetters_vf_eq_filter (r : List Char) :
    FixVerbForms.getRootLetters r
      = (pstrip r).filter
          (fun c => ((0x600 ≤ c.toNat && c.toNat ≤ 0x6FF))
            && !(ARABIC_DIACRITICS_vf.contains c)) := by
  simp [FixVerbForms.getRootLetters, FixVerbForms.removeDiacritics, List.filter_filter]

/-- Exact characterization of the aorist extractor: its output is the filter
of the whitespace-stripped input keeping precisely the Arabic-block
characters outside the script's diacritic table — all of them, in order. -/
lemma getRootLetters_aor_eq_filter (r : List Char) :
    FixAorists.getRootLetters r
      = (pstrip r).filter
          (fun c => ((0x600 ≤ c.toNat && c.toNat ≤ 0x6FF))
            && !(ARABIC_DIACRITICS_aor.contains c)) := by
  simp [FixAorists.getRootLetters, FixAorists.removeDiacritics, List.filter_filter]

/-- Lemma: the Form I generator depends only on the first three root
letters. -/
lemma generate_correct_aorist_take3 (rl : List Char) (p : Vowel)
    (h : 3 ≤ rl.length) :
    generate_correct_aorist rl p = generate_correct_aorist (rl.take 3) p := by
  rcases rl with _ | ⟨a, _ | ⟨b, _ | ⟨c, t⟩⟩⟩
  · simp at h
  · simp at h
  · simp at h
  · rfl

/-- Characterization of a successful classification: the returned mark occurs
in the unit, and no mark earlier in the chain does. -/
lemma classify_some_characterization (u : List Char) (d : RecMark)
    (h : extract_diacritic_from_letter u = some d) :
    markChar d ∈ u ∧ ∀ e, markPrio e < markPrio d → markChar e ∉ u := by
  unfold extract_diacritic_from_letter at h
  split_ifs at h with hf hk hd hs
  · cases h
    exact ⟨hf, by intro e he; exact absurd he (by cases e <;> simp [markPrio, markChar])⟩
  · cases h
    refine ⟨hk, ?_⟩
    intro e he
    cases e <;> simp [markPrio, markChar] at he ⊢ <;> try exact hf
  · cases h
    refine ⟨hd, ?_⟩
    intro e he
    cases e <;> simp [markPrio, markChar] at he ⊢
    · exact hf
    · exact hk
  · cases h
    refine ⟨hs, ?_⟩
    intro e he
    cases e <;> simp [markPrio, markChar] at he ⊢
    · exact hf
    · exact hk
    · exact hd

/-- Characterization of a failed classification: no recognized mark occurs. -/
lemma classify_none_characterization (u : List Char)
    (h : extract_diacritic_from_letter u = none) :
    ∀ d, markChar d ∉ u := by
  unfold extract_diacritic_from_letter at h
  intro d
  split_ifs at h with hf hk hd hs
  cases d <;> simp only [markChar] <;> assumption

/-- The fix counter of `apply_verb_form_fixes` counts every entry. -/
lemma apply_verb_form_fixes_count (doc : List Char) (es : List VfEntry) :
    (apply_verb_form_fixes doc es).2 = es.length := by
  induction es generalizing doc with
  | nil => rfl
  | cons e rest ih => simp [apply_verb_form_fixes, ih]

/-- The fix counter of `fix_aorists_loop` counts every entry. -/
lemma fix_aorists_loop_count (doc : List Char) (es : List AorEntry) :
    (fix_aorists_loop doc es).2 = es.length := by
  induction es generalizing doc with
  | nil => rfl
  | cons e rest ih => simp [fix_aorists_loop, ih]

/-! ## Claim theorems -/

/-- C1: the claim states that `apply` replaces each candidate's exact
original matched span with its generated text, leaves every byte outside the
matched spans unchanged, replaces occurrences with identical current-form
text and identical matched context independently, and never performs a
global substring replacement over the whole document.  The code refutes
this: on `docC1`, whose two root scopes (roots كتب and نصر) carry
byte-identical matched text, scanning yields two candidates with distinct
generated forms, yet the applied output nowhere contains the second
candidate's generated form — the first candidate's `re.sub` rewrote both
spans globally and the second candidate's substitution matched nothing. -/
theorem c1_apply_is_global_replacement_bug :
    (find_verb_form_entries docC1).map (fun e => e.correctForm)
      = [['ك', fathaC, 'ت', shaddaC, fathaC, 'ب', fathaC],
         ['ن', fathaC, 'ص', shaddaC, fathaC, 'ر', fathaC]]
  ∧ ¬ List.IsInfix ['ن', fathaC, 'ص', shaddaC, fathaC, 'ر', fathaC]
      (apply_verb_form_fixes docC1 (find_verb_form_entries docC1)).1 := by
  decide

/-- C2: the claim states that Form V selects the alif-kasra + doubled-r1
template exactly when r1 is in the assimilating set.  The code refutes this
for every triliteral root: with root letters (tā', bā', rā') — r1 = tā' is
in the assimilating set — the branch test
`apply_assimilation_rules(5, root) != root` is false because the rule
returns the root's own first three letters, so the tā'-prefixed template is
produced; the same root with a fourth letter appended does take the
assimilated template, showing the branch was intended to fire on the set. -/
theorem c2_assimilation_triliteral_bug :
    'ت' ∈ assimilating_letters
  ∧ generate_verb_form 5 ['ت', 'ب', 'ر']
      = some ['ت', fathaC, 'ت', fathaC, 'ب', shaddaC, fathaC, 'ر', fathaC]
  ∧ generate_verb_form 5 ['ت', 'ب', 'ر', 'ر']
      = some ['ا', kasraC, 'ت', shaddaC, fathaC, 'ب', shaddaC, fathaC, 'ر', fathaC]
  ∧ ['ت', fathaC, 'ت', fathaC, 'ب', shaddaC, fathaC, 'ر', fathaC]
      ≠ ['ا', kasraC, 'ت', shaddaC, fathaC, 'ب', shaddaC, fathaC, 'ر', fathaC] := by
  decide

/-- C3 counterexample: on the 3-character non-empty input bā', tā', kasra the
code returns `damma` (the short-input guard fires), while the claim's
procedure — classify the diacritic of the second letter unit — yields
`kasra`. -/
theorem c3_short_input_counterexample :
    (['ب', 'ت', kasraC] : List Char) ≠ []
  ∧ analyze_current_aorist_for_intended_pattern ['ب', 'ت', kasraC] = Vowel.damma
  ∧ inferClaim ['ب', 'ت', kasraC] = Vowel.kasra := by
  decide

/-- C3 amended: for inputs of at least 4 characters the inference is exactly
the claimed procedure (strip the yā'+fatha prefix, split into letter units,
default `damma` below 2 units, classify the second unit's diacritic with
fatha/kasra/damma mapped to themselves and all else to `damma`); inputs
shorter than 4 characters return the `damma` default unconditionally.  The
inference is total: it always returns one of the three patterns. -/
theorem c3_infer_amended (s : List Char) :
    analyze_current_aorist_for_intended_pattern s
      = if s.length < 4 then Vowel.damma else inferClaim s := by
  by_cases h : s.length < 4 <;>
    simp [analyze_current_aorist_for_intended_pattern, inferClaim, h]

/-- C4 counterexample: on a 4-letter root text the extractor returns all 4
letters, not the first 3 as the claim states. -/
theorem c4_four_letter_counterexample :
    FixVerbForms.getRootLetters ['ك', 'ت', 'ب', 'س'] = ['ك', 'ت', 'ب', 'س']
  ∧ (FixVerbForms.getRootLetters ['ك', 'ت', 'ب', 'س']).length ≠ 3 := by
  decide

/-- C4 amended: the extractor strips surrounding whitespace and diacritics
(each script filtering by its own table) and returns exactly the remaining
Arabic-block characters — all of them, in order, not just the first 3 (the
output equals, in both directions, the filter of the whitespace-stripped
input keeping precisely the Arabic-block non-diacritic characters).  When
fewer than 3 letters remain, both downstream generators return `none` (a
defined no-op); and the Form I generator builds its output from only the
first 3 letters of the result. -/
theorem c4_extract_amended (r : List Char) (n : Nat) (p : Vowel) :
    FixVerbForms.getRootLetters r
      = (pstrip r).filter
          (fun c => ((0x600 ≤ c.toNat && c.toNat ≤ 0x6FF))
            && !(ARABIC_DIACRITICS_vf.contains c))
  ∧ FixAorists.getRootLetters r
      = (pstrip r).filter
          (fun c => ((0x600 ≤ c.toNat && c.toNat ≤ 0x6FF))
            && !(ARABIC_DIACRITICS_aor.contains c))
  ∧ ((FixVerbForms.getRootLetters r).length < 3 →
        generate_verb_form n (FixVerbForms.getRootLetters r) = none)
  ∧ ((FixAorists.getRootLetters r).length < 3 →
        generate_correct_aorist (FixAorists.getRootLetters r) p = none)
  ∧ (3 ≤ (FixAorists.getRootLetters r).length →
        generate_correct_aorist (FixAorists.getRootLetters r) p
          = generate_correct_aorist ((FixAorists.getRootLetters r).take 3) p) :=
  ⟨getRootLetters_vf_eq_filter r,
   getRootLetters_aor_eq_filter r,
   fun h => generate_verb_form_none_of_short n _ h,
   fun h => generate_correct_aorist_none_of_short _ p h,
   fun h => generate_correct_aorist_take3 _ p h⟩

/-- C4 amended, witness: a 2-letter root text makes both generators return
`none`, and on a 4-letter root text the Form I generator agrees with its
value on the first three letters. -/
theorem c4_extract_amended_witness :
    generate_verb_form 5 (FixVerbForms.getRootLetters ['ك', 'م']) = none
  ∧ generate_correct_aorist (FixAorists.getRootLetters ['ك', 'م']) Vowel.damma = none
  ∧ generate_correct_aorist (FixAorists.getRootLetters ['ك', 'ت', 'ب', 'س']) Vowel.damma
      = generate_correct_aorist
          ((FixAorists.getRootLetters ['ك', 'ت', 'ب', 'س']).take 3) Vowel.damma :=
  ⟨(c4_extract_amended ['ك', 'م'] 5 Vowel.damma).2.2.1 (by decide),
   (c4_extract_amended ['ك', 'م'] 5 Vowel.damma).2.2.2.1 (by decide),
   (c4_extract_amended ['ك', 'ت', 'ب', 'س'] 5 Vowel.damma).2.2.2.2 (by decide)⟩

/-- C5 counterexample: `fix_aorists.py`'s `remove_diacritics` (the cited
strip) does not remove hamza-above, one of the ten claimed DiacriticMark
characters: its output can contain it. -/
theorem c5_hamza_counterexample :
    hamzaAboveC ∈ FixAorists.removeDiacritics ['ب', hamzaAboveC]
  ∧ hamzaAboveC ∈ ARABIC_DIACRITICS_vf := by
  decide

/-- C5 amended: the two scripts carry different diacritic tables.
`fix_verb_forms.py`'s strip removes all ten claimed marks; `fix_aorists.py`'s
strip removes only the eight marks of its own table (fatha, damma, kasra,
sukun, shadda and the three tanween marks) and leaves hamza-above and
hamza-below in its output. -/
theorem c5_strip_amended (s : List Char) (c : Char) :
    (c ∈ FixAorists.removeDiacritics s → c ∉ ARABIC_DIACRITICS_aor)
  ∧ (c ∈ FixVerbForms.removeDiacritics s → c ∉ ARABIC_DIACRITICS_vf) := by
  constructor
  · intro h
    simp only [FixAorists.removeDiacritics, List.mem_filter, Bool.not_eq_true'] at h
    intro hmem
    have h2 : List.elem c ARABIC_DIACRITICS_aor = false := h.2
    rw [List.elem_eq_true_of_mem hmem] at h2
    exact Bool.noConfusion h2
  · intro h
    simp only [FixVerbForms.removeDiacritics, List.mem_filter, Bool.not_eq_true'] at h
    intro hmem
    have h2 : List.elem c ARABIC_DIACRITICS_vf = false := h.2
    rw [List.elem_eq_true_of_mem hmem] at h2
    exact Bool.noConfusion h2

/-- C5 amended, witness: a base letter survives both strips and is in neither
diacritic table. -/
theorem c5_strip_amended_witness :
    'ب' ∉ ARABIC_DIACRITICS_aor ∧ 'ب' ∉ ARABIC_DIACRITICS_vf :=
  ⟨(c5_strip_amended ['ب', fathaC] 'ب').1 (by decide),
   (c5_strip_amended ['ب', fathaC] 'ب').2 (by decide)⟩

/-- C6: generation returns `none` whenever the root letters are invalid
(fewer than 3 letters — for every form number, in both the Forms 2–13
generator and the Form 1 aorist generator) or the form number lies outside
1–13 (the Forms 2–13 generator also returns `none` for form number 1, which
the aorist script handles). -/
theorem c6_generate_invalid_none (n : Nat) (rl : List Char) (p : Vowel) :
    (rl.length < 3 →
        generate_verb_form n rl = none ∧ generate_correct_aorist rl p = none)
  ∧ (n = 0 ∨ 13 < n → generate_verb_form n rl = none) := by
  constructor
  · intro h
    exact ⟨generate_verb_form_none_of_short n rl h,
           generate_correct_aorist_none_of_short rl p h⟩
  · intro h
    unfold generate_verb_form
    rw [if_pos]
    rcases h with h | h <;> simp [h]

/-- C6 witness: a 1-letter root yields `none` for both generators, and form
number 14 yields `none` on a valid root. -/
theorem c6_generate_invalid_none_witness :
    (generate_verb_form 7 ['ك'] = none ∧ generate_correct_aorist ['ك'] Vowel.damma = none)
  ∧ generate_verb_form 14 ['ك', 'ت', 'ب'] = none :=
  ⟨(c6_generate_invalid_none 7 ['ك'] Vowel.damma).1 (by decide),
   (c6_generate_invalid_none 14 ['ك', 'ت', 'ب'] Vowel.damma).2 (Or.inr (by decide))⟩

/-- C7: the claim states that rescanning the engine's own output yields zero
new candidates.  The code refutes this: on `docC1` the scan yields two
candidates, and rescanning the applied output yields one new candidate — the
global `re.sub` wrote the first root's generated form into the second root's
scope (whose matched text was byte-identical), where it differs from the
second root's generated form. -/
theorem c7_not_idempotent_bug :
    (find_verb_form_entries docC1).length = 2
  ∧ (find_verb_form_entries
        (apply_verb_form_fixes docC1 (find_verb_form_entries docC1)).1).length = 1 := by
  decide

/-- C8: classification of a letter unit returns the first recognized mark
under the fixed priority order fatha, kasra, damma, sukun — the returned
mark occurs in the unit and no mark of strictly earlier priority does — and
returns `none` exactly when no recognized mark occurs. -/
theorem c8_classify_priority (u : List Char) :
    (∀ d, extract_diacritic_from_letter u = some d →
        markChar d ∈ u ∧ ∀ e, markPrio e < markPrio d → markChar e ∉ u)
  ∧ (extract_diacritic_from_letter u = none → ∀ d, markChar d ∉ u) :=
  ⟨fun d h => classify_some_characterization u d h,
   fun h => classify_none_characterization u h⟩

/-- C8 witness: on a unit carrying both kasra and damma, classification
returns kasra, and fatha (the only earlier-priority mark) is absent. -/
theorem c8_classify_priority_witness :
    markChar RecMark.fatha ∉ (['ب', kasraC, dammaC] : List Char) :=
  ((c8_classify_priority ['ب', kasraC, dammaC]).1 RecMark.kasra (by decide)).2
    RecMark.fatha (by decide)

/-- C9: Form VII generation selects the doubled-nūn template when r1 is nūn,
the doubled-mīm template when r1 is mīm, and the generic
alif-kasra + nūn-sukun + r1 template otherwise. -/
theorem c9_form7_branches (r1 r2 r3 : Char) (t : List Char) :
    generate_verb_form 7 (r1 :: r2 :: r3 :: t)
      = if r1 = 'ن' then
          some ['ا', kasraC, 'ن', shaddaC, fathaC, r2, fathaC, r3, fathaC]
        else if r1 = 'م' then
          some ['ا', kasraC, 'م', shaddaC, fathaC, r2, fathaC, r3, fathaC]
        else
          some ['ا', kasraC, 'ن', sukunC, r1, fathaC, r2, fathaC, r3, fathaC] := by
  by_cases hn : r1 = 'ن'
  · subst hn
    simp [generate_verb_form, apply_assimilation_rules]
  · by_cases hm : r1 = 'م'
    · subst hm
      simp [generate_verb_form, apply_assimilation_rules]
    · simp [generate_verb_form, apply_assimilation_rules, hn, hm]

/-- C10: the fix count returned by both apply loops always equals the number
of candidate entries, one increment per entry unconditionally. -/
theorem c10_fix_count (doc : List Char) (ve : List VfEntry) (ae : List AorEntry) :
    (apply_verb_form_fixes doc ve).2 = ve.length
  ∧ (fix_aorists_loop doc ae).2 = ae.length :=
  ⟨apply_verb_form_fixes_count doc ve, fix_aorists_loop_count doc ae⟩
